import Mathlib

/-
Verification of the VisionStuffs ballistics code.

`SumCode` embeds src/Ballistics/SumCode.c: the truncated-Gaussian shot-force
model `calculateShotForce`.  C doubles are modelled as real numbers; the C
library functions `erf`, `exp`, `sqrt`, `fmax`, `pow` are modelled by the
corresponding mathematical functions (`erf` is defined below by its standard
integral form, since this Mathlib snapshot does not provide it).

`MainC` embeds src/Ballistics/main.c: the global simulation state and the
per-step force / kinematics updates.
-/

namespace SumCode

/-- Parameters of `calculateShotForce` (SumCode.c lines 16-19); the C function
takes them as ten separate `double` arguments, grouped here into the record the
spec calls `LauncherParameters`. -/
structure LauncherParameters where
  transferEfficiency : ℝ
  ballMass : ℝ
  shooterRPM : ℝ
  bottomWheelRadius : ℝ
  gearRatio : ℝ
  topWheelRadius : ℝ
  compression : ℝ
  compressionRatio : ℝ
  contactTime : ℝ

/-- The C library error function: erf x = (2/√π) ∫ t in 0..x, exp (-t²). -/
noncomputable def erf (x : ℝ) : ℝ :=
  (2 / Real.sqrt Real.pi) * ∫ t in (0:ℝ)..x, Real.exp (-t ^ 2)

/-- SumCode.c lines 12-14: `0.5 * (1.0 + erf(x / sqrt(2.0)))`. -/
noncomputable def normalCDF (x : ℝ) : ℝ :=
  0.5 * (1 + erf (x / Real.sqrt 2))

/-- SumCode.c line 23: `omega_b = (2.0 * M_PI * shooterRPM) / 60.0`. -/
noncomputable def omega_b (p : LauncherParameters) : ℝ :=
  2 * Real.pi * p.shooterRPM / 60

/-- SumCode.c line 24: `v_rim_bot = omega_b * bottomWheelRadius`. -/
noncomputable def v_rim_bot (p : LauncherParameters) : ℝ :=
  omega_b p * p.bottomWheelRadius

/-- SumCode.c line 25: `v_rim_top = omega_b * gearRatio * topWheelRadius`. -/
noncomputable def v_rim_top (p : LauncherParameters) : ℝ :=
  omega_b p * p.gearRatio * p.topWheelRadius

/-- SumCode.c line 27: `v_muzzle = (v_rim_bot + v_rim_top) / 2.0`. -/
noncomputable def v_muzzle (p : LauncherParameters) : ℝ :=
  (v_rim_bot p + v_rim_top p) / 2

/-- SumCode.c line 29: `impulse = transferEfficiency * ballMass * v_muzzle`. -/
noncomputable def impulse (p : LauncherParameters) : ℝ :=
  p.transferEfficiency * p.ballMass * v_muzzle p

/-- SumCode.c line 31: `t0 = contactTime / 2.0`. -/
noncomputable def t0 (p : LauncherParameters) : ℝ :=
  p.contactTime / 2

/-- SumCode.c line 32: `sigma = fmax(compressionRatio * compression, SIGMA_MIN)`
with `SIGMA_MIN = 1e-6`. -/
noncomputable def sigma (p : LauncherParameters) : ℝ :=
  max (p.compressionRatio * p.compression) 1e-6

/-- SumCode.c line 34: `cdf_lo = normalCDF((0.0 - t0) / sigma)`. -/
noncomputable def cdf_lo (p : LauncherParameters) : ℝ :=
  normalCDF ((0 - t0 p) / sigma p)

/-- SumCode.c line 35: `cdf_hi = normalCDF((contactTime - t0) / sigma)`. -/
noncomputable def cdf_hi (p : LauncherParameters) : ℝ :=
  normalCDF ((p.contactTime - t0 p) / sigma p)

/-- SumCode.c line 36: `norm = cdf_hi - cdf_lo`. -/
noncomputable def norm (p : LauncherParameters) : ℝ :=
  cdf_hi p - cdf_lo p

/-- SumCode.c lines 16-44: the full body of `calculateShotForce`.  Line 21 is
the early return outside the contact window, line 38 the degenerate-denominator
early return, lines 40-43 the Gaussian evaluation and final result. -/
noncomputable def calculateShotForce (p : LauncherParameters) (currentTime : ℝ) : ℝ :=
  if currentTime < 0 ∨ currentTime > p.contactTime then 0
  else if norm p < 1e-12 then 0
  else
    (impulse p / norm p) *
      ((1 / (sigma p * Real.sqrt (2 * Real.pi))) *
        Real.exp (-0.5 * ((currentTime - t0 p) / sigma p) ^ 2))

lemma calculateShotForce_in_window (p : LauncherParameters) (t : ℝ)
    (h : ¬(t < 0 ∨ t > p.contactTime)) :
    calculateShotForce p t =
      if norm p < 1e-12 then 0
      else
        (impulse p / norm p) *
          ((1 / (sigma p * Real.sqrt (2 * Real.pi))) *
            Real.exp (-0.5 * ((t - t0 p) / sigma p) ^ 2)) :=
  if_neg h

end SumCode

/-- C2: for every `LauncherParameters` and every time `t` with `t < 0` or
`t > contactTime`, `calculateShotForce` returns exactly 0. -/
theorem SumCode.calculateShotForce_outside_window (p : SumCode.LauncherParameters)
    (t : ℝ) (h : t < 0 ∨ t > p.contactTime) :
    SumCode.calculateShotForce p t = 0 :=
  if_pos h

/-- Witness for C2 at the spec §8 concrete scenario parameters and `t = -1`. -/
theorem SumCode.calculateShotForce_outside_window_witness :
    ((-1 : ℝ) < 0 ∨ (-1 : ℝ) > (SumCode.LauncherParameters.mk 0.8 0.045 4000 0.05 1 0.05 0.01 0.5 0.02).contactTime) ∧
      SumCode.calculateShotForce (SumCode.LauncherParameters.mk 0.8 0.045 4000 0.05 1 0.05 0.01 0.5 0.02) (-1) = 0 :=
  ⟨Or.inl (by norm_num),
   SumCode.calculateShotForce_outside_window _ (-1) (Or.inl (by norm_num))⟩

namespace MainC

/-- main.c lines 4-8: struct Vector3d with three double components. -/
@[ext] structure Vector3d where
  x : ℝ
  y : ℝ
  z : ℝ

/-- main.c lines 10-31: the process-wide global variables, gathered into one
record so that each update function is a function on this state.  The C
initialisers (gravityForce = (0,0,-9.81), timeStep = 0.01, ballMass = 0.045,
and so on) appear below as concrete `Globals` values where a claim needs them. -/
structure Globals where
  gravityForce : Vector3d
  magnusForce : Vector3d
  dragForce : Vector3d
  shotForce : Vector3d
  position : Vector3d
  velocity : Vector3d
  acceleration : Vector3d
  ballArea : ℝ
  spinVector : Vector3d
  timeStep : ℝ
  turretAngle : ℝ
  shooterRPM : ℝ
  hoodAngle : ℝ
  ballMass : ℝ
  ballRadius : ℝ
  airDensity : ℝ
  dragCoefficient : ℝ
  magnusCoefficient : ℝ

/-- main.c lines 33-39. -/
def createVector (x y z : ℝ) : Vector3d :=
  { x := x, y := y, z := z }

/-- main.c lines 41-47. -/
def add (a b : Vector3d) : Vector3d :=
  { x := a.x + b.x, y := a.y + b.y, z := a.z + b.z }

/-- main.c lines 49-55; the C parameter is a `float`, modelled as a real. -/
def scalarMultiply (v : Vector3d) (scalar : ℝ) : Vector3d :=
  { x := v.x * scalar, y := v.y * scalar, z := v.z * scalar }

/-- main.c lines 62-68. -/
def vectorCross (a b : Vector3d) : Vector3d :=
  { x := a.y * b.z - a.z * b.y
    y := a.z * b.x - a.x * b.z
    z := a.x * b.y - a.y * b.x }

/-- main.c lines 74-76. -/
noncomputable def vectorMagnitude (v : Vector3d) : ℝ :=
  Real.sqrt (v.x * v.x + v.y * v.y + v.z * v.z)

/-- main.c lines 78-80. -/
def vectorDot (a b : Vector3d) : ℝ :=
  a.x * b.x + a.y * b.y + a.z * b.z

/-- main.c lines 86-91.  The source computes `dragDirection =
scalarMultiply(velocity, -1.0 / speed)` with no guard on `speed`; when the
velocity is the zero vector this divides by zero (IEEE: `-1.0/0.0 = -inf`,
then `0.0 * -inf = NaN`), which the real numbers cannot represent, so the
division-by-zero path is modelled as `none`. -/
noncomputable def updateDragForce (g : Globals) : Option Globals :=
  if vectorMagnitude g.velocity = 0 then none
  else
    some { g with
      dragForce :=
        scalarMultiply
          (scalarMultiply g.velocity (-1 / vectorMagnitude g.velocity))
          (0.5 * g.airDensity * vectorMagnitude g.velocity * vectorMagnitude g.velocity *
            g.dragCoefficient * g.ballArea) }

/-- main.c lines 93-98. -/
noncomputable def updateMagnusForce (g : Globals) : Globals :=
  { g with
    magnusForce :=
      scalarMultiply (vectorCross g.spinVector g.velocity)
        (0.5 * g.airDensity * vectorMagnitude g.velocity * g.ballArea * g.ballRadius *
          g.magnusCoefficient) }

/-- main.c lines 100-103: the shot-force update is a stub that zeroes the
vector. -/
def updateShotForce (g : Globals) : Globals :=
  { g with shotForce := createVector 0 0 0 }

/-- main.c lines 105-109: drag, Magnus, shot, in that order. -/
noncomputable def updateForces (g : Globals) : Option Globals :=
  (updateDragForce g).map fun g1 => updateShotForce (updateMagnusForce g1)

/-- main.c lines 111-114.  `ballMass` is a positive configuration constant
(0.045 in the source), so the `1.0 / ballMass` division is modelled with total
real division. -/
noncomputable def updateAcceleration (g : Globals) : Globals :=
  { g with
    acceleration :=
      scalarMultiply (add (add g.gravityForce g.dragForce) (add g.magnusForce g.shotForce))
        (1 / g.ballMass) }

/-- main.c lines 116-118. -/
def updateVelocity (g : Globals) : Globals :=
  { g with velocity := add g.velocity (scalarMultiply g.acceleration g.timeStep) }

/-- main.c lines 120-122. -/
def updatePosition (g : Globals) : Globals :=
  { g with position := add g.position (scalarMultiply g.velocity g.timeStep) }

/-- The global state as initialised at the top of main.c: every force except
gravity zero, kinematic state zero, `ballArea` zero (the global is never
assigned; `main` only sets a shadowing local), and the constants of lines
22-31. -/
noncomputable def gStart : Globals :=
  { gravityForce := ⟨0, 0, -9.81⟩
    magnusForce := ⟨0, 0, 0⟩
    dragForce := ⟨0, 0, 0⟩
    shotForce := ⟨0, 0, 0⟩
    position := ⟨0, 0, 0⟩
    velocity := ⟨0, 0, 0⟩
    acceleration := ⟨0, 0, 0⟩
    ballArea := 0
    spinVector := ⟨0, 0, 0⟩
    timeStep := 0.01
    turretAngle := 0
    shooterRPM := 0
    hoodAngle := 0
    ballMass := 0.045
    ballRadius := 0.02135
    airDensity := 1.225
    dragCoefficient := 0.47
    magnusCoefficient := 0.1 }

/-- Like `gStart` but with a nonzero velocity (1,2,3) and nonzero spin left
zero; used to exercise the non-degenerate branch of the force updates. -/
noncomputable def gMagnus : Globals :=
  { gStart with velocity := ⟨1, 2, 3⟩, ballArea := 1 }

end MainC

/-- C9: running `updateVelocity` then `updatePosition` from state with velocity
`v` and acceleration `a` yields velocity `v + a·timeStep`, and the position
update uses that already-updated velocity: `p + (v + a·timeStep)·timeStep`
(semi-implicit Euler). -/
theorem MainC.semi_implicit_euler_step (g : MainC.Globals) :
    (MainC.updatePosition (MainC.updateVelocity g)).velocity =
        MainC.add g.velocity (MainC.scalarMultiply g.acceleration g.timeStep) ∧
      (MainC.updatePosition (MainC.updateVelocity g)).position =
        MainC.add g.position
          (MainC.scalarMultiply
            (MainC.add g.velocity (MainC.scalarMultiply g.acceleration g.timeStep))
            g.timeStep) :=
  ⟨rfl, rfl⟩

/-- C8: the Magnus update returns the zero vector when the spin vector or the
velocity is the zero vector, and its result is always orthogonal (dot product
zero) to both the spin vector and the velocity. -/
theorem MainC.magnus_zero_and_orthogonal (g : MainC.Globals) :
    ((g.spinVector = MainC.createVector 0 0 0 ∨ g.velocity = MainC.createVector 0 0 0) →
        (MainC.updateMagnusForce g).magnusForce = MainC.createVector 0 0 0) ∧
      MainC.vectorDot (MainC.updateMagnusForce g).magnusForce g.spinVector = 0 ∧
      MainC.vectorDot (MainC.updateMagnusForce g).magnusForce g.velocity = 0 := by
  refine ⟨fun h => ?_, ?_, ?_⟩
  · rcases h with h | h <;>
      · ext <;> simp [MainC.updateMagnusForce, MainC.scalarMultiply, MainC.vectorCross,
          MainC.createVector, h]
  · simp only [MainC.updateMagnusForce, MainC.scalarMultiply, MainC.vectorCross,
      MainC.vectorDot]
    ring
  · simp only [MainC.updateMagnusForce, MainC.scalarMultiply, MainC.vectorCross,
      MainC.vectorDot]
    ring

/-- Witness for C8 at a concrete state with zero spin and velocity (1,2,3). -/
theorem MainC.magnus_zero_and_orthogonal_witness :
    (MainC.updateMagnusForce MainC.gMagnus).magnusForce = MainC.createVector 0 0 0 ∧
      MainC.vectorDot (MainC.updateMagnusForce MainC.gMagnus).magnusForce
          MainC.gMagnus.spinVector = 0 ∧
      MainC.vectorDot (MainC.updateMagnusForce MainC.gMagnus).magnusForce
          MainC.gMagnus.velocity = 0 :=
  ⟨(MainC.magnus_zero_and_orthogonal MainC.gMagnus).1 (Or.inl rfl),
   (MainC.magnus_zero_and_orthogonal MainC.gMagnus).2.1,
   (MainC.magnus_zero_and_orthogonal MainC.gMagnus).2.2⟩

/-- C3 (code bug): from the initial global state (velocity zero, drag, Magnus
and shot forces zero, only gravity active), one integration step with
timeStep = 0.01 yields velocity.z = -2.18 and position.z = -0.0218, not the
claimed -0.0981 and -0.000981: `updateAcceleration` divides the gravity vector
(0,0,-9.81) — which already holds the gravitational acceleration — by
ballMass = 0.045 a second time, giving acceleration.z = -218. -/
theorem MainC.gravity_step_diverges :
    (MainC.updatePosition (MainC.updateVelocity (MainC.updateAcceleration MainC.gStart))).velocity.z = -2.18 ∧
      (MainC.updatePosition (MainC.updateVelocity (MainC.updateAcceleration MainC.gStart))).position.z = -0.0218 ∧
      ¬(MainC.updatePosition (MainC.updateVelocity (MainC.updateAcceleration MainC.gStart))).velocity.z = -0.0981 ∧
      ¬(MainC.updatePosition (MainC.updateVelocity (MainC.updateAcceleration MainC.gStart))).position.z = -0.000981 := by
  norm_num [MainC.gStart, MainC.updateAcceleration, MainC.updateVelocity, MainC.updatePosition,
    MainC.add, MainC.scalarMultiply]

/-- C4 (code bug): at the initial global state, whose velocity is the zero
vector, the drag update takes the division-by-zero path (`-1.0 / speed` with
`speed = 0`), modelled as `none`; it does not special-case zero speed to
return the zero vector. -/
theorem MainC.updateDragForce_zero_velocity_divides :
    MainC.updateDragForce MainC.gStart = none := by
  simp [MainC.updateDragForce, MainC.vectorMagnitude, MainC.gStart]

namespace MainC

/-- The drag-updated state reached from `gMagnus` (whose speed is √14 ≠ 0):
the value inside `some` in the else-branch of `updateDragForce`. -/
noncomputable def gMagnusDragged : Globals :=
  { gMagnus with
    dragForce :=
      scalarMultiply
        (scalarMultiply gMagnus.velocity (-1 / vectorMagnitude gMagnus.velocity))
        (0.5 * gMagnus.airDensity * vectorMagnitude gMagnus.velocity *
          vectorMagnitude gMagnus.velocity * gMagnus.dragCoefficient * gMagnus.ballArea) }

/-- The state after the full `updateForces` pass from `gMagnus`. -/
noncomputable def gMagnusStepped : Globals :=
  updateShotForce (updateMagnusForce gMagnusDragged)

lemma vectorMagnitude_gMagnus_ne_zero : vectorMagnitude gMagnus.velocity ≠ 0 := by
  have h : gMagnus.velocity = ⟨1, 2, 3⟩ := rfl
  rw [h]
  show Real.sqrt (1 * 1 + 2 * 2 + 3 * 3) ≠ 0
  rw [show (1 * 1 + 2 * 2 + 3 * 3 : ℝ) = 14 by norm_num]
  exact Real.sqrt_ne_zero'.mpr (by norm_num)

lemma updateForces_gMagnus : updateForces gMagnus = some gMagnusStepped := by
  unfold updateForces updateDragForce
  rw [if_neg vectorMagnitude_gMagnus_ne_zero]
  rfl

end MainC

/-- C10: the force updates and the acceleration update never touch position,
velocity or the spin vector, and the velocity update never touches position. -/
theorem MainC.update_frame_conditions :
    (∀ g g', MainC.updateForces g = some g' →
        g'.position = g.position ∧ g'.velocity = g.velocity ∧ g'.spinVector = g.spinVector) ∧
      (∀ g : MainC.Globals,
        (MainC.updateAcceleration g).position = g.position ∧
          (MainC.updateAcceleration g).velocity = g.velocity ∧
          (MainC.updateAcceleration g).spinVector = g.spinVector) ∧
      (∀ g : MainC.Globals, (MainC.updateVelocity g).position = g.position) := by
  refine ⟨fun g g' h => ?_, fun g => ⟨rfl, rfl, rfl⟩, fun g => rfl⟩
  unfold MainC.updateForces MainC.updateDragForce at h
  by_cases hc : MainC.vectorMagnitude g.velocity = 0
  · rw [if_pos hc] at h
    simp at h
  · rw [if_neg hc] at h
    simp only [Option.map_some', Option.some.injEq] at h
    subst h
    exact ⟨rfl, rfl, rfl⟩

/-- Witness for C10 at the concrete state `gMagnus`, whose speed is nonzero so
that the drag update succeeds. -/
theorem MainC.update_frame_conditions_witness :
    (MainC.gMagnusStepped.position = MainC.gMagnus.position ∧
        MainC.gMagnusStepped.velocity = MainC.gMagnus.velocity ∧
        MainC.gMagnusStepped.spinVector = MainC.gMagnus.spinVector) ∧
      (MainC.updateAcceleration MainC.gMagnus).position = MainC.gMagnus.position ∧
      (MainC.updateVelocity MainC.gMagnus).position = MainC.gMagnus.position :=
  ⟨MainC.update_frame_conditions.1 MainC.gMagnus MainC.gMagnusStepped
      MainC.updateForces_gMagnus,
   (MainC.update_frame_conditions.2.1 MainC.gMagnus).1,
   MainC.update_frame_conditions.2.2 MainC.gMagnus⟩

namespace SumCode

lemma expNegSq_continuous : Continuous fun t : ℝ => Real.exp (-t ^ 2) :=
  Real.continuous_exp.comp (continuous_pow 2).neg

lemma expNegSq_intervalIntegrable (a b : ℝ) :
    IntervalIntegrable (fun t : ℝ => Real.exp (-t ^ 2)) MeasureTheory.volume a b :=
  expNegSq_continuous.intervalIntegrable a b

lemma erf_neg (x : ℝ) : erf (-x) = -erf x := by
  unfold erf
  rw [← mul_neg]
  congr 1
  rw [intervalIntegral.integral_symm (-x) 0]
  congr 1
  have h2 : (∫ t in (0:ℝ)..x, (fun u : ℝ => Real.exp (-u ^ 2)) (-t)) =
      ∫ t in (-x)..(-(0:ℝ)), (fun u : ℝ => Real.exp (-u ^ 2)) t := by
    exact intervalIntegral.integral_comp_neg fun u : ℝ => Real.exp (-u ^ 2)
  simp only [neg_sq, neg_zero] at h2
  exact h2.symm

lemma sqrt_four_eq_two : Real.sqrt 4 = 2 := by
  rw [show (4:ℝ) = 2 ^ 2 by norm_num]
  exact Real.sqrt_sq (by norm_num)

lemma one_le_sqrt_pi : 1 ≤ Real.sqrt Real.pi :=
  calc (1:ℝ) = Real.sqrt 1 := Real.sqrt_one.symm
    _ ≤ Real.sqrt Real.pi := Real.sqrt_le_sqrt (by linarith [Real.pi_gt_three])

lemma sqrt_pi_le_two : Real.sqrt Real.pi ≤ 2 :=
  calc Real.sqrt Real.pi ≤ Real.sqrt 4 := Real.sqrt_le_sqrt Real.pi_le_four
    _ = 2 := sqrt_four_eq_two

lemma one_le_sqrt_two : 1 ≤ Real.sqrt 2 :=
  calc (1:ℝ) = Real.sqrt 1 := Real.sqrt_one.symm
    _ ≤ Real.sqrt 2 := Real.sqrt_le_sqrt (by norm_num)

lemma sqrt_two_le_two : Real.sqrt 2 ≤ 2 :=
  calc Real.sqrt 2 ≤ Real.sqrt 4 := Real.sqrt_le_sqrt (by norm_num)
    _ = 2 := sqrt_four_eq_two

lemma erf_le_two_mul (x : ℝ) (hx : 0 ≤ x) : erf x ≤ 2 * x := by
  unfold erf
  have hI1 : (∫ t in (0:ℝ)..x, Real.exp (-t ^ 2)) ≤ ∫ _t in (0:ℝ)..x, (1:ℝ) := by
    apply intervalIntegral.integral_mono_on hx (expNegSq_intervalIntegrable 0 x)
      intervalIntegrable_const
    intro u _hu
    calc Real.exp (-u ^ 2) ≤ Real.exp 0 :=
          Real.exp_le_exp.mpr (by nlinarith [sq_nonneg u])
      _ = 1 := Real.exp_zero
  rw [intervalIntegral.integral_const, smul_eq_mul, sub_zero, mul_one] at hI1
  have hI0 : 0 ≤ ∫ t in (0:ℝ)..x, Real.exp (-t ^ 2) :=
    intervalIntegral.integral_nonneg hx fun u _ => (Real.exp_pos _).le
  have hc : 2 / Real.sqrt Real.pi ≤ 2 := by
    rw [div_le_iff₀ (by positivity : (0:ℝ) < Real.sqrt Real.pi)]
    nlinarith [one_le_sqrt_pi]
  calc (2 / Real.sqrt Real.pi) * ∫ t in (0:ℝ)..x, Real.exp (-t ^ 2)
      ≤ 2 * x := mul_le_mul hc hI1 hI0 (by norm_num)

lemma third_le_erf (x : ℝ) (hx : 1 ≤ x) : 1 / 3 ≤ erf x := by
  unfold erf
  have hsplit : (∫ t in (0:ℝ)..1, Real.exp (-t ^ 2)) + ∫ t in (1:ℝ)..x, Real.exp (-t ^ 2) =
      ∫ t in (0:ℝ)..x, Real.exp (-t ^ 2) :=
    intervalIntegral.integral_add_adjacent_intervals (expNegSq_intervalIntegrable 0 1)
      (expNegSq_intervalIntegrable 1 x)
  have htail : 0 ≤ ∫ t in (1:ℝ)..x, Real.exp (-t ^ 2) :=
    intervalIntegral.integral_nonneg hx fun u _ => (Real.exp_pos _).le
  have hhead : Real.exp (-1) ≤ ∫ t in (0:ℝ)..1, Real.exp (-t ^ 2) := by
    have hmono : (∫ _t in (0:ℝ)..1, Real.exp (-1)) ≤ ∫ t in (0:ℝ)..1, Real.exp (-t ^ 2) := by
      apply intervalIntegral.integral_mono_on (by norm_num : (0:ℝ) ≤ 1)
        intervalIntegrable_const (expNegSq_intervalIntegrable 0 1)
      intro u hu
      exact Real.exp_le_exp.mpr (by nlinarith [hu.1, hu.2])
    rwa [intervalIntegral.integral_const, smul_eq_mul, sub_zero, one_mul] at hmono
  have hE : 1 / 3 ≤ Real.exp (-1) := by
    rw [Real.exp_neg, show (1:ℝ) / 3 = 3⁻¹ by norm_num]
    exact inv_anti₀ (Real.exp_pos 1)
      (le_of_lt (lt_trans Real.exp_one_lt_d9 (by norm_num)))
  have hI : 1 / 3 ≤ ∫ t in (0:ℝ)..x, Real.exp (-t ^ 2) := by
    rw [← hsplit]; linarith
  have hc : 1 ≤ 2 / Real.sqrt Real.pi := by
    rw [le_div_iff₀ (by positivity : (0:ℝ) < Real.sqrt Real.pi)]
    nlinarith [sqrt_pi_le_two]
  have hmul := le_mul_of_one_le_left (le_trans (by norm_num) hI) hc
  linarith

/-- `norm p` written as a single error-function value: by oddness of `erf`,
`cdf_hi - cdf_lo = erf (t0 / sigma / √2)`. -/
lemma norm_eq_erf (p : LauncherParameters) :
    norm p = erf (t0 p / sigma p / Real.sqrt 2) := by
  unfold norm cdf_hi cdf_lo normalCDF
  have ha : (p.contactTime - t0 p) / sigma p / Real.sqrt 2 = t0 p / sigma p / Real.sqrt 2 := by
    unfold t0; ring
  have hb : (0 - t0 p) / sigma p / Real.sqrt 2 = -(t0 p / sigma p / Real.sqrt 2) := by
    ring
  rw [ha, hb, erf_neg]
  ring

lemma sigma_pos (p : LauncherParameters) : 0 < sigma p :=
  lt_of_lt_of_le (by norm_num) (le_max_right _ _)

end SumCode

/- Definitions following the wording of spec §4.1 (and claim C1), kept
separate from the `SumCode` embedding so that the C1 refinement theorem
compares the code against the spec's own formulas. -/
namespace ShotSpec

/-- Spec §4.1: angular rate ω = 2π·shooterRPM/60. -/
noncomputable def omega (p : SumCode.LauncherParameters) : ℝ :=
  2 * Real.pi * p.shooterRPM / 60

/-- Spec §4.1: muzzle velocity is the arithmetic mean of the two rim speeds
ω·bottomWheelRadius and ω·gearRatio·topWheelRadius. -/
noncomputable def muzzleVelocity (p : SumCode.LauncherParameters) : ℝ :=
  (omega p * p.bottomWheelRadius + omega p * p.gearRatio * p.topWheelRadius) / 2

/-- Spec §4.1: total impulse = transferEfficiency · ballMass · muzzleVelocity. -/
noncomputable def impulse (p : SumCode.LauncherParameters) : ℝ :=
  p.transferEfficiency * p.ballMass * muzzleVelocity p

/-- Spec §4.1: t0 = contactTime/2, the midpoint of the contact window. -/
noncomputable def t0 (p : SumCode.LauncherParameters) : ℝ :=
  p.contactTime / 2

/-- Spec §4.1: σ = max(compressionRatio · compression, 1e-6). -/
noncomputable def sigma (p : SumCode.LauncherParameters) : ℝ :=
  max (p.compressionRatio * p.compression) 1e-6

/-- Spec §4.1: the CDF at `x` of the Gaussian with mean `t0` and standard
deviation `σ`, computed via the standard normal CDF. -/
noncomputable def normalCDFAt (p : SumCode.LauncherParameters) (x : ℝ) : ℝ :=
  SumCode.normalCDF ((x - t0 p) / sigma p)

/-- The Gaussian probability density at `x` with mean `mu` and standard
deviation `s`. -/
noncomputable def gaussianDensity (x mu s : ℝ) : ℝ :=
  (1 / (s * Real.sqrt (2 * Real.pi))) * Real.exp (-(1 / 2) * ((x - mu) / s) ^ 2)

end ShotSpec

namespace SumCode

/-- The §3 data-model constraints on `LauncherParameters`. -/
def ValidParams (p : LauncherParameters) : Prop :=
  0 < p.transferEfficiency ∧ p.transferEfficiency ≤ 1 ∧ 0 < p.ballMass ∧
    0 ≤ p.shooterRPM ∧ 0 < p.bottomWheelRadius ∧ 0 < p.gearRatio ∧ 0 < p.topWheelRadius ∧
    0 ≤ p.compression ∧ 0 ≤ p.compressionRatio ∧ 0 < p.contactTime

lemma not_window {p : LauncherParameters} {t : ℝ} (h0 : 0 ≤ t) (h1 : t ≤ p.contactTime) :
    ¬(t < 0 ∨ t > p.contactTime) := by
  push_neg
  exact ⟨h0, h1⟩

lemma norm_eq_spec (p : LauncherParameters) :
    ShotSpec.normalCDFAt p p.contactTime - ShotSpec.normalCDFAt p 0 = norm p :=
  rfl

lemma impulse_nonneg (p : LauncherParameters) (h : ValidParams p) : 0 ≤ impulse p := by
  obtain ⟨hte, _, hm, hrpm, hrb, hgr, hrt, _, _, _⟩ := h
  unfold impulse v_muzzle v_rim_bot v_rim_top omega_b
  apply mul_nonneg (mul_nonneg hte.le hm.le)
  apply div_nonneg _ (by norm_num : (0:ℝ) ≤ 2)
  have hw : 0 ≤ 2 * Real.pi * p.shooterRPM / 60 :=
    div_nonneg (mul_nonneg (by positivity : (0:ℝ) ≤ 2 * Real.pi) hrpm) (by norm_num)
  exact add_nonneg (mul_nonneg hw hrb.le) (mul_nonneg (mul_nonneg hw hgr.le) hrt.le)

/-- Concrete parameters with σ = 1 and a wide contact window, used as a
non-degenerate witness input. -/
noncomputable def pC1 : LauncherParameters :=
  ⟨1, 1, 60, 1, 1, 1, 1, 1, 10⟩

/-- Concrete parameters with σ = 1e12 against a 1e-6 contact window, used as a
degenerate-normalization witness input. -/
noncomputable def pC5 : LauncherParameters :=
  ⟨1, 1, 60, 1, 1, 1, 1e12, 1, 1e-6⟩

lemma validParams_pC1 : ValidParams pC1 := by
  norm_num [ValidParams, pC1]

lemma sigma_pC1 : sigma pC1 = 1 := by
  rw [show sigma pC1 = max ((1:ℝ) * 1) 1e-6 from rfl, show ((1:ℝ) * 1) = 1 by norm_num]
  exact max_eq_left (by norm_num)

lemma t0_pC1 : t0 pC1 = 5 := by
  rw [show t0 pC1 = (10:ℝ) / 2 from rfl]
  norm_num

lemma sigma_pC5 : sigma pC5 = 1e12 := by
  rw [show sigma pC5 = max ((1:ℝ) * 1e12) 1e-6 from rfl, show ((1:ℝ) * 1e12) = 1e12 by norm_num]
  exact max_eq_left (by norm_num)

lemma t0_pC5 : t0 pC5 = 5e-7 := by
  rw [show t0 pC5 = (1e-6:ℝ) / 2 from rfl]
  norm_num

lemma norm_pC1_large : (1e-12:ℝ) ≤ norm pC1 := by
  rw [norm_eq_erf, t0_pC1, sigma_pC1]
  have h1 : (1:ℝ) ≤ 5 / 1 / Real.sqrt 2 := by
    rw [show (5:ℝ) / 1 = 5 by norm_num,
      le_div_iff₀ (lt_of_lt_of_le one_pos one_le_sqrt_two)]
    nlinarith [sqrt_two_le_two]
  linarith [third_le_erf _ h1]

lemma norm_pC5_small : norm pC5 < 1e-12 := by
  rw [norm_eq_erf, t0_pC5, sigma_pC5]
  have ha0 : (0:ℝ) ≤ 5e-7 / 1e12 / Real.sqrt 2 := by positivity
  have ha : (5e-7:ℝ) / 1e12 / Real.sqrt 2 ≤ 5e-19 := by
    calc (5e-7:ℝ) / 1e12 / Real.sqrt 2 ≤ 5e-7 / 1e12 :=
          div_le_self (by norm_num) one_le_sqrt_two
      _ = 5e-19 := by norm_num
  have hb := erf_le_two_mul _ ha0
  linarith

end SumCode

/-- C1: for every `LauncherParameters` and time `t` in the contact window, when
the truncated-Gaussian normalization denominator is at least 1e-12,
`calculateShotForce` returns (impulse / (CDF(contactTime) − CDF(0))) times the
Gaussian density at `t` with mean t0 = contactTime/2 and standard deviation
σ = max(compressionRatio·compression, 1e-6), where the impulse is
transferEfficiency·ballMass·muzzleVelocity and the muzzle velocity is the
arithmetic mean of ω·bottomWheelRadius and ω·gearRatio·topWheelRadius with
ω = 2π·shooterRPM/60 (the right-hand side is built from the `ShotSpec`
definitions, which follow the spec's wording). -/
theorem SumCode.calculateShotForce_formula (p : SumCode.LauncherParameters) (t : ℝ)
    (h0 : 0 ≤ t) (h1 : t ≤ p.contactTime)
    (hn : 1e-12 ≤ ShotSpec.normalCDFAt p p.contactTime - ShotSpec.normalCDFAt p 0) :
    SumCode.calculateShotForce p t =
      (ShotSpec.impulse p / (ShotSpec.normalCDFAt p p.contactTime - ShotSpec.normalCDFAt p 0)) *
        ShotSpec.gaussianDensity t (ShotSpec.t0 p) (ShotSpec.sigma p) := by
  rw [SumCode.calculateShotForce_in_window p t (SumCode.not_window h0 h1)]
  rw [SumCode.norm_eq_spec] at hn
  rw [if_neg (not_lt.mpr hn), SumCode.norm_eq_spec]
  have himp : ShotSpec.impulse p = SumCode.impulse p := by
    unfold ShotSpec.impulse ShotSpec.muzzleVelocity ShotSpec.omega SumCode.impulse
      SumCode.v_muzzle SumCode.v_rim_bot SumCode.v_rim_top SumCode.omega_b
    ring
  have hpdf : ShotSpec.gaussianDensity t (ShotSpec.t0 p) (ShotSpec.sigma p) =
      (1 / (SumCode.sigma p * Real.sqrt (2 * Real.pi))) *
        Real.exp (-0.5 * ((t - SumCode.t0 p) / SumCode.sigma p) ^ 2) := by
    unfold ShotSpec.gaussianDensity ShotSpec.t0 ShotSpec.sigma SumCode.t0 SumCode.sigma
    norm_num
  rw [himp, hpdf]

/-- Witness for C1: the parameters `pC1` (σ = 1, contact window [0,10]) have a
normalization denominator erf(5/√2) ≥ 1/3 ≥ 1e-12, and t = 5 lies in the
window. -/
theorem SumCode.calculateShotForce_formula_witness :
    (0:ℝ) ≤ 5 ∧ (5:ℝ) ≤ SumCode.pC1.contactTime ∧
      (1e-12:ℝ) ≤ ShotSpec.normalCDFAt SumCode.pC1 SumCode.pC1.contactTime -
        ShotSpec.normalCDFAt SumCode.pC1 0 ∧
      SumCode.calculateShotForce SumCode.pC1 5 =
        (ShotSpec.impulse SumCode.pC1 /
            (ShotSpec.normalCDFAt SumCode.pC1 SumCode.pC1.contactTime -
              ShotSpec.normalCDFAt SumCode.pC1 0)) *
          ShotSpec.gaussianDensity 5 (ShotSpec.t0 SumCode.pC1) (ShotSpec.sigma SumCode.pC1) := by
  have h1 : (5:ℝ) ≤ SumCode.pC1.contactTime := by
    rw [show SumCode.pC1.contactTime = (10:ℝ) from rfl]
    norm_num
  have hn : (1e-12:ℝ) ≤ ShotSpec.normalCDFAt SumCode.pC1 SumCode.pC1.contactTime -
      ShotSpec.normalCDFAt SumCode.pC1 0 := by
    rw [SumCode.norm_eq_spec]
    exact SumCode.norm_pC1_large
  exact ⟨by norm_num, h1, hn,
    SumCode.calculateShotForce_formula SumCode.pC1 5 (by norm_num) h1 hn⟩

/-- C5: for every `LauncherParameters` and time `t` in the contact window, if
the truncated-Gaussian normalization denominator CDF(contactTime) − CDF(0) is
smaller than 1e-12, `calculateShotForce` returns 0 instead of dividing by the
near-zero denominator. -/
theorem SumCode.calculateShotForce_degenerate (p : SumCode.LauncherParameters) (t : ℝ)
    (h0 : 0 ≤ t) (h1 : t ≤ p.contactTime)
    (hn : ShotSpec.normalCDFAt p p.contactTime - ShotSpec.normalCDFAt p 0 < 1e-12) :
    SumCode.calculateShotForce p t = 0 := by
  rw [SumCode.calculateShotForce_in_window p t (SumCode.not_window h0 h1)]
  rw [SumCode.norm_eq_spec] at hn
  exact if_pos hn

/-- Witness for C5: the parameters `pC5` (σ = 1e12 against a 1e-6 window) have
a normalization denominator erf(5e-19/√2) ≤ 1e-18 < 1e-12, and t = 0 lies in
the window. -/
theorem SumCode.calculateShotForce_degenerate_witness :
    (0:ℝ) ≤ 0 ∧ (0:ℝ) ≤ SumCode.pC5.contactTime ∧
      ShotSpec.normalCDFAt SumCode.pC5 SumCode.pC5.contactTime -
        ShotSpec.normalCDFAt SumCode.pC5 0 < 1e-12 ∧
      SumCode.calculateShotForce SumCode.pC5 0 = 0 := by
  have h1 : (0:ℝ) ≤ SumCode.pC5.contactTime := by
    rw [show SumCode.pC5.contactTime = (1e-6:ℝ) from rfl]
    norm_num
  have hn : ShotSpec.normalCDFAt SumCode.pC5 SumCode.pC5.contactTime -
      ShotSpec.normalCDFAt SumCode.pC5 0 < 1e-12 := by
    rw [SumCode.norm_eq_spec]
    exact SumCode.norm_pC5_small
  exact ⟨le_refl 0, h1, hn,
    SumCode.calculateShotForce_degenerate SumCode.pC5 0 (le_refl 0) h1 hn⟩

/-- C7: for every `LauncherParameters` satisfying the §3 constraints and every
time `t`, `calculateShotForce` returns a value ≥ 0. -/
theorem SumCode.calculateShotForce_nonneg (p : SumCode.LauncherParameters)
    (h : SumCode.ValidParams p) (t : ℝ) :
    0 ≤ SumCode.calculateShotForce p t := by
  unfold SumCode.calculateShotForce
  split_ifs with h1 h2
  · exact le_refl 0
  · exact le_refl 0
  · have hnorm : (0:ℝ) < SumCode.norm p := lt_of_lt_of_le (by norm_num) (not_lt.mp h2)
    apply mul_nonneg (div_nonneg (SumCode.impulse_nonneg p h) hnorm.le)
    apply mul_nonneg
    · exact one_div_nonneg.mpr (mul_nonneg (SumCode.sigma_pos p).le (Real.sqrt_nonneg _))
    · exact (Real.exp_pos _).le

/-- Witness for C7 at the valid parameters `pC1` and `t = 7`. -/
theorem SumCode.calculateShotForce_nonneg_witness :
    SumCode.ValidParams SumCode.pC1 ∧ 0 ≤ SumCode.calculateShotForce SumCode.pC1 7 :=
  ⟨SumCode.validParams_pC1,
   SumCode.calculateShotForce_nonneg SumCode.pC1 SumCode.validParams_pC1 7⟩

/-- C6: for every `LauncherParameters` satisfying the §3 data-model
constraints, the shot force is symmetric about the window midpoint
t0 = contactTime/2 — its value at t0 − Δ equals its value at t0 + Δ for every
Δ with 0 ≤ Δ ≤ contactTime/2 — and it is maximal at t0 over the contact
window. -/
theorem SumCode.calculateShotForce_symmetric_max (p : SumCode.LauncherParameters)
    (h : SumCode.ValidParams p) (d t : ℝ)
    (hd0 : 0 ≤ d) (hd1 : d ≤ p.contactTime / 2) (ht0 : 0 ≤ t) (ht1 : t ≤ p.contactTime) :
    SumCode.calculateShotForce p (p.contactTime / 2 - d) =
        SumCode.calculateShotForce p (p.contactTime / 2 + d) ∧
      SumCode.calculateShotForce p t ≤ SumCode.calculateShotForce p (p.contactTime / 2) := by
  have hct : 0 < p.contactTime := h.2.2.2.2.2.2.2.2.2
  have hw1 : ¬(p.contactTime / 2 - d < 0 ∨ p.contactTime / 2 - d > p.contactTime) := by
    push_neg
    constructor <;> linarith
  have hw2 : ¬(p.contactTime / 2 + d < 0 ∨ p.contactTime / 2 + d > p.contactTime) := by
    push_neg
    constructor <;> linarith
  have hw4 : ¬(p.contactTime / 2 < 0 ∨ p.contactTime / 2 > p.contactTime) := by
    push_neg
    constructor <;> linarith
  constructor
  · rw [SumCode.calculateShotForce_in_window p _ hw1,
      SumCode.calculateShotForce_in_window p _ hw2]
    have hx : ((p.contactTime / 2 - d - SumCode.t0 p) / SumCode.sigma p) ^ 2 =
        ((p.contactTime / 2 + d - SumCode.t0 p) / SumCode.sigma p) ^ 2 := by
      unfold SumCode.t0
      ring
    rw [hx]
  · rw [SumCode.calculateShotForce_in_window p t (SumCode.not_window ht0 ht1),
      SumCode.calculateShotForce_in_window p _ hw4]
    split_ifs with hn
    · exact le_refl 0
    · have hnorm : (0:ℝ) < SumCode.norm p := lt_of_lt_of_le (by norm_num) (not_lt.mp hn)
      have hcoef : 0 ≤ SumCode.impulse p / SumCode.norm p :=
        div_nonneg (SumCode.impulse_nonneg p h) hnorm.le
      have hfac : 0 ≤ 1 / (SumCode.sigma p * Real.sqrt (2 * Real.pi)) :=
        one_div_nonneg.mpr (mul_nonneg (SumCode.sigma_pos p).le (Real.sqrt_nonneg _))
      have hz : p.contactTime / 2 - SumCode.t0 p = 0 := by
        unfold SumCode.t0
        ring
      have hexp : Real.exp (-0.5 * ((t - SumCode.t0 p) / SumCode.sigma p) ^ 2) ≤
          Real.exp (-0.5 * ((p.contactTime / 2 - SumCode.t0 p) / SumCode.sigma p) ^ 2) := by
        apply Real.exp_le_exp.mpr
        rw [hz, zero_div]
        nlinarith [sq_nonneg ((t - SumCode.t0 p) / SumCode.sigma p)]
      exact mul_le_mul_of_nonneg_left (mul_le_mul_of_nonneg_left hexp hfac) hcoef

/-- Witness for C6 at the valid parameters `pC1` with Δ = 1 and t = 3. -/
theorem SumCode.calculateShotForce_symmetric_max_witness :
    SumCode.ValidParams SumCode.pC1 ∧ (0:ℝ) ≤ 1 ∧ (1:ℝ) ≤ SumCode.pC1.contactTime / 2 ∧
      (0:ℝ) ≤ 3 ∧ (3:ℝ) ≤ SumCode.pC1.contactTime ∧
      (SumCode.calculateShotForce SumCode.pC1 (SumCode.pC1.contactTime / 2 - 1) =
          SumCode.calculateShotForce SumCode.pC1 (SumCode.pC1.contactTime / 2 + 1) ∧
        SumCode.calculateShotForce SumCode.pC1 3 ≤
          SumCode.calculateShotForce SumCode.pC1 (SumCode.pC1.contactTime / 2)) := by
  have h1 : (1:ℝ) ≤ SumCode.pC1.contactTime / 2 := by
    rw [show SumCode.pC1.contactTime = (10:ℝ) from rfl]
    norm_num
  have h3 : (3:ℝ) ≤ SumCode.pC1.contactTime := by
    rw [show SumCode.pC1.contactTime = (10:ℝ) from rfl]
    norm_num
  exact ⟨SumCode.validParams_pC1, by norm_num, h1, by norm_num, h3,
    SumCode.calculateShotForce_symmetric_max SumCode.pC1 SumCode.validParams_pC1 1 3
      (by norm_num) h1 (by norm_num) h3⟩
